import Mathlib

/-! The `ignite::Ignite` facade (`core/include/ignite/ignite.h`).

A shallow embedding of the client facade class `ignite::Ignite`: the validity
query `IsValid` and the three cache-acquisition operations `GetCache`,
`GetOrCreateCache` and `CreateCache`, each in its throwing overload
(`name`) and its non-throwing overload (`name, IgniteError* err`).

Conventions of the embedding.

* A C++ pointer is an `Option`: `none` is the null pointer.
* The engine behind the delegate is state of type `σ`, threaded explicitly;
  next to it the world keeps the trace of the calls made into the delegate.
* A method call evaluates to an `Exec`: it returns, it throws an
  `IgniteError`, or it takes an undefined step (dereference of a null pointer).
  A completed call also yields the facade object and the world after it.
* The template parameters `K, V` are compile-time only; every definition is
  the code at one instantiation `<K, V>`, the delegate record being the
  delegate's behaviour at that instantiation.
-/

namespace ignite

/-! ## Collaborators declared outside `ignite.h` -/

/-- Modelled from the spec: the status code of a successful Error Value
(`IGNITE_SUCCESS`, declared in `ignite_error.h`). -/
def IGNITE_SUCCESS : Int := 0

/-- Modelled from the spec: the Error Value `IgniteError` (declared in
`ignite_error.h`): a status code (success or a specific failure kind) and a
human-readable message. -/
structure IgniteError where
  code : Int
  msg : String
deriving DecidableEq, Repr

/-- Modelled from the spec: the default constructor `IgniteError()`; a
default-constructed Error Value denotes success. -/
def IgniteError.ctor : IgniteError := ⟨IGNITE_SUCCESS, ""⟩

/-- Modelled from the spec: `IgniteError::ThrowIfNeeded(err)`; if the Error
Value is not success the condition raised carries the same status and message,
otherwise nothing is raised. `some e` is the raised condition. -/
def IgniteError.ThrowIfNeeded (err : IgniteError) : Option IgniteError :=
  if err.code ≠ IGNITE_SUCCESS then some err else none

/-- Modelled from the spec: the opaque cache implementation `impl::cache::CacheImpl`
(declared in `cache_impl.h`), identified by the engine-side object it stands for. -/
structure CacheImpl where
  id : Nat
deriving DecidableEq, Repr

/-- Modelled from the spec: the Cache Handle `cache::Cache<K, V>` (declared in
`cache.h`), built from a `CacheImpl*` which may be null. -/
structure Cache where
  impl : Option CacheImpl
deriving DecidableEq, Repr

/-- Modelled from the spec: `Cache::IsValid`; a Cache Handle is invalid iff the
wrapped reference is null. -/
def Cache.IsValid (c : Cache) : Bool := c.impl.isSome

/-- What a delegate operation hands back: the `CacheImpl*` it returns (null
included), the Error Value it leaves in the `IgniteError&` it was given, and
the engine state after the operation. -/
structure Reply (σ : Type) where
  cacheImpl : Option CacheImpl
  err : IgniteError
  engine : σ

/-- A delegate operation `Op<K, V>(const char* name, IgniteError& err)`: it
reads the name, may read and write the Error Value passed by reference, and
acts on the engine. -/
abbrev DelegateFn (σ : Type) : Type := String → IgniteError → σ → Reply σ

/-- Modelled from the spec: the Implementation Delegate `impl::IgniteImpl`
(declared in `ignite_impl.h`), taken as a parameter: the three operations the
facade consumes, each returning an opaque cache-impl reference or null. -/
structure IgniteImpl (σ : Type) where
  GetCache : DelegateFn σ
  GetOrCreateCache : DelegateFn σ
  CreateCache : DelegateFn σ

/-- Modelled from the spec: `common::concurrent::SharedPointer<T>` (declared in
`concurrent.h`): a shared reference that is null or refers to a target. -/
structure SharedPointer (T : Type) where
  ptr : Option T

/-- Modelled from the spec: `SharedPointer::Get`, the raw pointer held. -/
def SharedPointer.Get {T : Type} (p : SharedPointer T) : Option T := p.ptr

/-- Modelled from the spec: `SharedPointer::IsValid`, true iff the reference
is non-null. -/
def SharedPointer.IsValid {T : Type} (p : SharedPointer T) : Bool := p.ptr.isSome

/-! ## The world around the facade -/

/-- The three delegate operations the facade can invoke. -/
inductive DelegateOp where
  | GetCache
  | GetOrCreateCache
  | CreateCache
deriving DecidableEq, Repr

/-- One invocation of the delegate: which operation, with which name, and the
Error Value the delegate found in the reference it was given. -/
structure DelegateCall where
  op : DelegateOp
  name : String
  err : IgniteError
deriving DecidableEq, Repr

/-- The world a facade call runs in: the engine state behind the delegate and
the trace of delegate invocations made so far. -/
structure World (σ : Type) where
  engine : σ
  calls : List DelegateCall

/-- The operation of a delegate selected by its tag. -/
def IgniteImpl.method {σ : Type} (d : IgniteImpl σ) : DelegateOp → DelegateFn σ
  | .GetCache => d.GetCache
  | .GetOrCreateCache => d.GetOrCreateCache
  | .CreateCache => d.CreateCache

/-! ## `class Ignite` -/

/-- The Facade Root `class Ignite`: its only member is the delegate reference
`SharedPointer<impl::IgniteImpl> impl`. -/
structure Ignite (σ : Type) where
  impl : SharedPointer (IgniteImpl σ)

/-- Modelled from the spec: the default constructor `Ignite()` (defined in
`ignite.cpp`); default construction yields an invalid Facade Root. -/
def Ignite.ctor {σ : Type} : Ignite σ := ⟨⟨none⟩⟩

/-- Modelled from the spec: the constructor `Ignite(impl::IgniteImpl* impl)`
(defined in `ignite.cpp`); the root shares the delegate it is given. -/
def Ignite.ctorFrom {σ : Type} (impl : Option (IgniteImpl σ)) : Ignite σ := ⟨⟨impl⟩⟩

/-- Outcome of a method call on a Facade Root. -/
inductive Exec (σ : Type) (α : Type) where
  /-- an undefined step: a null pointer was dereferenced -/
  | undefined : Exec σ α
  /-- normal return of `value`, with the root and the world after the call -/
  | returned (value : α) (self : Ignite σ) (w : World σ) : Exec σ α
  /-- a thrown `IgniteError`, with the root and the world after the call -/
  | thrown (e : IgniteError) (self : Ignite σ) (w : World σ) : Exec σ α

/-- The method `bool IsValid() const`, whose body is `return impl.IsValid();`. -/
def Ignite.IsValid {σ : Type} (self : Ignite σ) (w : World σ) : Exec σ Bool :=
  .returned self.impl.IsValid self w

/-- The non-throwing overload
`GetCache(const char* name, IgniteError* err)`:
`cacheImpl = impl.Get()->GetCache<K, V>(name, *err); return Cache<K, V>(cacheImpl);`
The value returned pairs the handle with the contents of `*err` after the call. -/
def Ignite.GetCache_err {σ : Type} (self : Ignite σ) (name : String)
    (err : Option IgniteError) (w : World σ) : Exec σ (Cache × IgniteError) :=
  match self.impl.Get, err with
  | some d, some e =>
    let r := d.GetCache name e w.engine
    .returned (Cache.mk r.cacheImpl, r.err) self
      ⟨r.engine, w.calls ++ [⟨DelegateOp.GetCache, name, e⟩]⟩
  | _, _ => .undefined

/-- The throwing overload `GetCache(const char* name)`:
`IgniteError err; res = GetCache<K, V>(name, &err); IgniteError::ThrowIfNeeded(err); return res;` -/
def Ignite.GetCache {σ : Type} (self : Ignite σ) (name : String) (w : World σ) :
    Exec σ Cache :=
  let err := IgniteError.ctor
  match self.GetCache_err name (some err) w with
  | .undefined => .undefined
  | .thrown e self1 w1 => .thrown e self1 w1
  | .returned (res, err1) self1 w1 =>
    match IgniteError.ThrowIfNeeded err1 with
    | some e => .thrown e self1 w1
    | none => .returned res self1 w1

/-- The non-throwing overload
`GetOrCreateCache(const char* name, IgniteError* err)`:
`cacheImpl = impl.Get()->GetOrCreateCache<K, V>(name, *err); return Cache<K, V>(cacheImpl);` -/
def Ignite.GetOrCreateCache_err {σ : Type} (self : Ignite σ) (name : String)
    (err : Option IgniteError) (w : World σ) : Exec σ (Cache × IgniteError) :=
  match self.impl.Get, err with
  | some d, some e =>
    let r := d.GetOrCreateCache name e w.engine
    .returned (Cache.mk r.cacheImpl, r.err) self
      ⟨r.engine, w.calls ++ [⟨DelegateOp.GetOrCreateCache, name, e⟩]⟩
  | _, _ => .undefined

/-- The throwing overload `GetOrCreateCache(const char* name)`:
`IgniteError err; res = GetOrCreateCache<K, V>(name, &err); IgniteError::ThrowIfNeeded(err); return res;` -/
def Ignite.GetOrCreateCache {σ : Type} (self : Ignite σ) (name : String) (w : World σ) :
    Exec σ Cache :=
  let err := IgniteError.ctor
  match self.GetOrCreateCache_err name (some err) w with
  | .undefined => .undefined
  | .thrown e self1 w1 => .thrown e self1 w1
  | .returned (res, err1) self1 w1 =>
    match IgniteError.ThrowIfNeeded err1 with
    | some e => .thrown e self1 w1
    | none => .returned res self1 w1

/-- The non-throwing overload
`CreateCache(const char* name, IgniteError* err)`:
`cacheImpl = impl.Get()->CreateCache<K, V>(name, *err); return Cache<K, V>(cacheImpl);` -/
def Ignite.CreateCache_err {σ : Type} (self : Ignite σ) (name : String)
    (err : Option IgniteError) (w : World σ) : Exec σ (Cache × IgniteError) :=
  match self.impl.Get, err with
  | some d, some e =>
    let r := d.CreateCache name e w.engine
    .returned (Cache.mk r.cacheImpl, r.err) self
      ⟨r.engine, w.calls ++ [⟨DelegateOp.CreateCache, name, e⟩]⟩
  | _, _ => .undefined

/-- The throwing overload `CreateCache(const char* name)`:
`IgniteError err; res = CreateCache<K, V>(name, &err); IgniteError::ThrowIfNeeded(err); return res;` -/
def Ignite.CreateCache {σ : Type} (self : Ignite σ) (name : String) (w : World σ) :
    Exec σ Cache :=
  let err := IgniteError.ctor
  match self.CreateCache_err name (some err) w with
  | .undefined => .undefined
  | .thrown e self1 w1 => .thrown e self1 w1
  | .returned (res, err1) self1 w1 =>
    match IgniteError.ThrowIfNeeded err1 with
    | some e => .thrown e self1 w1
    | none => .returned res self1 w1

/-- The non-throwing overload of the acquisition operation tagged `op`. -/
def Ignite.nonThrowing {σ : Type} (self : Ignite σ) :
    DelegateOp → String → Option IgniteError → World σ → Exec σ (Cache × IgniteError)
  | .GetCache => self.GetCache_err
  | .GetOrCreateCache => self.GetOrCreateCache_err
  | .CreateCache => self.CreateCache_err

/-- The throwing overload of the acquisition operation tagged `op`. -/
def Ignite.throwing {σ : Type} (self : Ignite σ) :
    DelegateOp → String → World σ → Exec σ Cache
  | .GetCache => self.GetCache
  | .GetOrCreateCache => self.GetOrCreateCache
  | .CreateCache => self.CreateCache

/-! ## Contracts a delegate may or may not honour -/

/-- The delegate operation uses the Error Value purely as an out-parameter: the
reference it returns, the engine state it leaves and whether and what it
writes into the Error Value are fixed by the name and the engine state alone;
`none` for the written value means the Error Value is left as it was. -/
def OutParamOnly {σ : Type} (f : DelegateFn σ) : Prop :=
  ∃ g : String → σ → Option CacheImpl × Option IgniteError × σ,
    ∀ n e s, f n e s = ⟨(g n s).1, (g n s).2.1.getD e, (g n s).2.2⟩

/-- The delegate operation never leaves a success Error Value next to a null
reference. -/
def SuccessGivesRef {σ : Type} (f : DelegateFn σ) : Prop :=
  ∀ n e s, (f n e s).err.code = IGNITE_SUCCESS → (f n e s).cacheImpl ≠ none

/-- The delegate operation never leaves a non-success Error Value next to a
non-null reference. -/
def FailureGivesNull {σ : Type} (f : DelegateFn σ) : Prop :=
  ∀ n e s, (f n e s).err.code ≠ IGNITE_SUCCESS → (f n e s).cacheImpl = none

/-- The delegate with its `GetCache` operation replaced by `f`. -/
def IgniteImpl.withGetCache {σ : Type} (d : IgniteImpl σ) (f : DelegateFn σ) : IgniteImpl σ :=
  ⟨f, d.GetOrCreateCache, d.CreateCache⟩

/-- The trace of delegate invocations after a completed call. -/
def Exec.calls? {σ α : Type} : Exec σ α → Option (List DelegateCall)
  | .undefined => none
  | .returned _ _ w => some w.calls
  | .thrown _ _ w => some w.calls

/-! ## Sample delegates and inputs -/

/-- A failure left over from an earlier call. -/
def staleError : IgniteError := ⟨7, "left over"⟩

/-- A toy engine: the state is the list of the names of the caches that exist.
`GetCache` fails if the name is absent, `CreateCache` fails if it is present,
`GetOrCreateCache` never fails for either reason. Every operation overwrites
the Error Value with its own verdict. -/
def registryImpl : IgniteImpl (List String) where
  GetCache := fun n _ s =>
    if n ∈ s then ⟨some ⟨s.indexOf n⟩, IgniteError.ctor, s⟩
    else ⟨none, ⟨2, "cache not found"⟩, s⟩
  GetOrCreateCache := fun n _ s =>
    if n ∈ s then ⟨some ⟨s.indexOf n⟩, IgniteError.ctor, s⟩
    else ⟨some ⟨s.length⟩, IgniteError.ctor, s ++ [n]⟩
  CreateCache := fun n _ s =>
    if n ∈ s then ⟨none, ⟨3, "cache already exists"⟩, s⟩
    else ⟨some ⟨s.length⟩, IgniteError.ctor, s ++ [n]⟩

/-- A delegate that reports nothing: every operation returns a live reference
and leaves the Error Value it was given untouched. -/
def silentImpl : IgniteImpl Unit where
  GetCache := fun _ e s => ⟨some ⟨1⟩, e, s⟩
  GetOrCreateCache := fun _ e s => ⟨some ⟨1⟩, e, s⟩
  CreateCache := fun _ e s => ⟨some ⟨1⟩, e, s⟩

/-- A delegate that returns a null reference and leaves the Error Value it was
given untouched. -/
def nullImpl : IgniteImpl Unit where
  GetCache := fun _ e s => ⟨none, e, s⟩
  GetOrCreateCache := fun _ e s => ⟨none, e, s⟩
  CreateCache := fun _ e s => ⟨none, e, s⟩

/-- A delegate that reads the Error Value it is given: handed a failure it
clears it and returns a live reference, handed a success it reports a failure
and returns null. -/
def contraryImpl : IgniteImpl Unit where
  GetCache := fun _ e s =>
    if e.code ≠ IGNITE_SUCCESS then ⟨some ⟨1⟩, IgniteError.ctor, s⟩
    else ⟨none, ⟨2, "cache not found"⟩, s⟩
  GetOrCreateCache := fun _ e s => ⟨some ⟨1⟩, e, s⟩
  CreateCache := fun _ e s => ⟨some ⟨1⟩, e, s⟩

/-- A world with no delegate call made yet. -/
def World.start {σ : Type} (s : σ) : World σ := ⟨s, []⟩

/-! ## General facts about the six operations -/

/-- On a root whose delegate is `d`, the non-throwing form tagged `op` is one
call of `d.method op` on the caller's name and Error Value. -/
theorem nonThrowing_eq {σ : Type} (self : Ignite σ) (d : IgniteImpl σ)
    (hd : self.impl.Get = some d) (op : DelegateOp) (name : String) (e : IgniteError)
    (w : World σ) :
    self.nonThrowing op name (some e) w =
      .returned (Cache.mk (d.method op name e w.engine).cacheImpl,
          (d.method op name e w.engine).err) self
        ⟨(d.method op name e w.engine).engine, w.calls ++ [⟨op, name, e⟩]⟩ := by
  cases op <;>
    simp [Ignite.nonThrowing, Ignite.GetCache_err, Ignite.GetOrCreateCache_err,
      Ignite.CreateCache_err, IgniteImpl.method, hd]

/-- On a root with a null delegate reference every non-throwing form takes an
undefined step. -/
theorem nonThrowing_null {σ : Type} (self : Ignite σ) (hd : self.impl.Get = none)
    (op : DelegateOp) (name : String) (err : Option IgniteError) (w : World σ) :
    self.nonThrowing op name err w = .undefined := by
  cases op <;>
    simp [Ignite.nonThrowing, Ignite.GetCache_err, Ignite.GetOrCreateCache_err,
      Ignite.CreateCache_err, hd]

/-- Each throwing form is its own non-throwing form run on a fresh Error Value,
followed by `ThrowIfNeeded`. -/
theorem throwing_eq {σ : Type} (self : Ignite σ) (op : DelegateOp) (name : String)
    (w : World σ) :
    self.throwing op name w =
      match self.nonThrowing op name (some IgniteError.ctor) w with
      | .undefined => .undefined
      | .thrown e self1 w1 => .thrown e self1 w1
      | .returned (res, err1) self1 w1 =>
        match IgniteError.ThrowIfNeeded err1 with
        | some e => .thrown e self1 w1
        | none => .returned res self1 w1 := by
  cases op <;> rfl

/-- On a root whose delegate is `d`, the throwing form tagged `op` throws the
Error Value the delegate left if it is not success, and otherwise returns the
handle around the delegate's reference. -/
theorem throwing_valid {σ : Type} (self : Ignite σ) (d : IgniteImpl σ)
    (hd : self.impl.Get = some d) (op : DelegateOp) (name : String) (w : World σ) :
    self.throwing op name w =
      if (d.method op name IgniteError.ctor w.engine).err.code ≠ IGNITE_SUCCESS then
        .thrown (d.method op name IgniteError.ctor w.engine).err self
          ⟨(d.method op name IgniteError.ctor w.engine).engine,
            w.calls ++ [⟨op, name, IgniteError.ctor⟩]⟩
      else
        .returned (Cache.mk (d.method op name IgniteError.ctor w.engine).cacheImpl) self
          ⟨(d.method op name IgniteError.ctor w.engine).engine,
            w.calls ++ [⟨op, name, IgniteError.ctor⟩]⟩ := by
  rw [throwing_eq, nonThrowing_eq self d hd]
  simp only [IgniteError.ThrowIfNeeded]
  split_ifs <;> rfl

/-- On a root with a null delegate reference every throwing form takes an
undefined step. -/
theorem throwing_null {σ : Type} (self : Ignite σ) (hd : self.impl.Get = none)
    (op : DelegateOp) (name : String) (w : World σ) :
    self.throwing op name w = .undefined := by
  rw [throwing_eq, nonThrowing_null self hd]

/-! ## Form symmetry of `GetCache` -/

/-- C1 (as stated, refuted): with the delegate `contraryImpl` and the caller's
Error Value `staleError`, the non-throwing `GetCache("a", &err)` on a valid
root leaves `err` as success and returns a live handle, while the throwing
`GetCache("a")` from the same root and world raises "cache not found". -/
theorem GetCache_symmetry_success_refuted :
    (Ignite.ctorFrom (some contraryImpl)).impl.IsValid = true ∧
    (Ignite.ctorFrom (some contraryImpl)).GetCache_err "a" (some staleError) (World.start ()) =
      .returned (⟨some ⟨1⟩⟩, IgniteError.ctor) (Ignite.ctorFrom (some contraryImpl))
        ⟨(), [⟨.GetCache, "a", staleError⟩]⟩ ∧
    IgniteError.ctor.code = IGNITE_SUCCESS ∧
    (Ignite.ctorFrom (some contraryImpl)).GetCache "a" (World.start ()) =
      .thrown ⟨2, "cache not found"⟩ (Ignite.ctorFrom (some contraryImpl))
        ⟨(), [⟨.GetCache, "a", IgniteError.ctor⟩]⟩ :=
  ⟨rfl, rfl, rfl, rfl⟩

/-- C1 (amended): on a valid root, for every name and every Error Value `err`
that is freshly default-constructed, or with a delegate `GetCache` that uses
the Error Value purely as an out-parameter, if the non-throwing
`GetCache(n, &err)` leaves `err` as success and returns handle `h`, then the
throwing `GetCache(n)` from the same root and world raises nothing and returns
`h`, leaving the engine in the same state. -/
theorem GetCache_symmetry_success {σ : Type} (self : Ignite σ) (d : IgniteImpl σ)
    (hd : self.impl.Get = some d) (name : String) (err : IgniteError) (w : World σ)
    (h : Cache) (err1 : IgniteError) (self1 : Ignite σ) (w1 : World σ)
    (hfresh : err = IgniteError.ctor ∨ OutParamOnly d.GetCache)
    (hrun : self.GetCache_err name (some err) w = .returned (h, err1) self1 w1)
    (hok : err1.code = IGNITE_SUCCESS) :
    ∃ w2, self.GetCache name w = .returned h self1 w2 ∧ w2.engine = w1.engine := by
  have hn := nonThrowing_eq self d hd .GetCache name err w
  have ht := throwing_valid self d hd .GetCache name w
  simp only [Ignite.nonThrowing, Ignite.throwing, IgniteImpl.method] at hn ht
  rw [hn] at hrun
  injection hrun with hval hself hw
  injection hval with hh he
  subst hh he hself hw
  rw [ht]
  rcases hfresh with rfl | ⟨g, hg⟩
  · rw [if_neg (not_not.mpr hok)]
    exact ⟨_, rfl, rfl⟩
  · have hfr : (d.GetCache name IgniteError.ctor w.engine).err.code = IGNITE_SUCCESS := by
      rw [hg] at hok ⊢
      cases hopt : (g name w.engine).2.1 with
      | none => simp [hopt, IgniteError.ctor]
      | some x => simpa [hopt] using hok
    rw [if_neg (not_not.mpr hfr)]
    refine ⟨⟨(d.GetCache name IgniteError.ctor w.engine).engine,
      w.calls ++ [⟨.GetCache, name, IgniteError.ctor⟩]⟩, ?_, ?_⟩
    · rw [hg name err, hg name IgniteError.ctor]
    · simp only
      rw [hg name err, hg name IgniteError.ctor]

/-- Witness for C1 (amended): the silent delegate is out-parameter-only; handed
a success Error Value carrying a message, the non-throwing form leaves it as
it is and both forms return the same handle. -/
theorem GetCache_symmetry_success_witness :
    (Ignite.ctorFrom (some silentImpl)).impl.Get = some silentImpl ∧
    OutParamOnly silentImpl.GetCache ∧
    (Ignite.ctorFrom (some silentImpl)).GetCache_err "a" (some ⟨IGNITE_SUCCESS, "note"⟩)
        (World.start ()) =
      .returned (⟨some ⟨1⟩⟩, ⟨IGNITE_SUCCESS, "note"⟩) (Ignite.ctorFrom (some silentImpl))
        ⟨(), [⟨.GetCache, "a", ⟨IGNITE_SUCCESS, "note"⟩⟩]⟩ ∧
    ∃ w2, (Ignite.ctorFrom (some silentImpl)).GetCache "a" (World.start ()) =
        .returned ⟨some ⟨1⟩⟩ (Ignite.ctorFrom (some silentImpl)) w2 ∧
      w2.engine = () :=
  have hout : OutParamOnly silentImpl.GetCache :=
    ⟨fun _ s => (some ⟨1⟩, none, s), fun _ _ _ => rfl⟩
  ⟨rfl, hout, rfl,
    GetCache_symmetry_success (Ignite.ctorFrom (some silentImpl)) silentImpl rfl "a"
      ⟨IGNITE_SUCCESS, "note"⟩ (World.start ()) ⟨some ⟨1⟩⟩ ⟨IGNITE_SUCCESS, "note"⟩
      (Ignite.ctorFrom (some silentImpl)) ⟨(), [⟨.GetCache, "a", ⟨IGNITE_SUCCESS, "note"⟩⟩]⟩
      (Or.inr hout) rfl rfl⟩

/-- C2 (as stated, refuted): with the silent delegate and the caller's Error
Value `staleError`, the non-throwing `GetCache("a", &err)` on a valid root
leaves the non-success `staleError` in `err`, while the throwing
`GetCache("a")` from the same root and world raises nothing and returns a
handle. -/
theorem GetCache_symmetry_failure_refuted :
    (Ignite.ctorFrom (some silentImpl)).impl.IsValid = true ∧
    (Ignite.ctorFrom (some silentImpl)).GetCache_err "a" (some staleError) (World.start ()) =
      .returned (⟨some ⟨1⟩⟩, staleError) (Ignite.ctorFrom (some silentImpl))
        ⟨(), [⟨.GetCache, "a", staleError⟩]⟩ ∧
    staleError.code ≠ IGNITE_SUCCESS ∧
    (Ignite.ctorFrom (some silentImpl)).GetCache "a" (World.start ()) =
      .returned ⟨some ⟨1⟩⟩ (Ignite.ctorFrom (some silentImpl))
        ⟨(), [⟨.GetCache, "a", IgniteError.ctor⟩]⟩ :=
  ⟨rfl, rfl, by decide, rfl⟩

/-- C2 (amended): on a valid root, for every name, the non-throwing
`GetCache(n, &err)` run on a freshly default-constructed Error Value completes
with some handle `h` and Error Value `e`; if `e` is not success the throwing
`GetCache(n)` from the same root and world raises exactly `e` (same status
code and message) and returns no handle, and if `e` is success it raises
nothing and returns `h`: the throwing form raises if and only if the Error
Value produced by its inner non-throwing call is not success. -/
theorem GetCache_symmetry_failure {σ : Type} (self : Ignite σ) (d : IgniteImpl σ)
    (hd : self.impl.Get = some d) (name : String) (w : World σ) :
    ∃ h e w1,
      self.GetCache_err name (some IgniteError.ctor) w = .returned (h, e) self w1 ∧
      (e.code ≠ IGNITE_SUCCESS → self.GetCache name w = .thrown e self w1) ∧
      (e.code = IGNITE_SUCCESS → self.GetCache name w = .returned h self w1) ∧
      ((∃ x self2 w2, self.GetCache name w = .thrown x self2 w2) ↔
        e.code ≠ IGNITE_SUCCESS) := by
  have hn := nonThrowing_eq self d hd .GetCache name IgniteError.ctor w
  have ht := throwing_valid self d hd .GetCache name w
  simp only [Ignite.nonThrowing, Ignite.throwing, IgniteImpl.method] at hn ht
  refine ⟨_, _, _, hn, ?_, ?_, ?_⟩
  · intro hne
    rw [ht, if_pos hne]
  · intro heq
    rw [ht, if_neg (not_not.mpr heq)]
  · constructor
    · rintro ⟨x, self2, w2, hx⟩
      intro heq
      rw [ht, if_neg (not_not.mpr heq)] at hx
      cases hx
    · intro hne
      exact ⟨_, _, _, by rw [ht, if_pos hne]⟩

/-- Witness for C2 (amended): on the toy engine holding only cache "a",
`GetCache("b")` fails in both forms with the same "cache not found". -/
theorem GetCache_symmetry_failure_witness :
    (Ignite.ctorFrom (some registryImpl)).impl.Get = some registryImpl ∧
    ∃ h e w1,
      (Ignite.ctorFrom (some registryImpl)).GetCache_err "b" (some IgniteError.ctor)
          (World.start ["a"]) = .returned (h, e) (Ignite.ctorFrom (some registryImpl)) w1 ∧
      (e.code ≠ IGNITE_SUCCESS → (Ignite.ctorFrom (some registryImpl)).GetCache "b"
          (World.start ["a"]) = .thrown e (Ignite.ctorFrom (some registryImpl)) w1) ∧
      (e.code = IGNITE_SUCCESS → (Ignite.ctorFrom (some registryImpl)).GetCache "b"
          (World.start ["a"]) = .returned h (Ignite.ctorFrom (some registryImpl)) w1) ∧
      ((∃ x self2 w2, (Ignite.ctorFrom (some registryImpl)).GetCache "b"
          (World.start ["a"]) = .thrown x self2 w2) ↔ e.code ≠ IGNITE_SUCCESS) :=
  ⟨rfl, GetCache_symmetry_failure (Ignite.ctorFrom (some registryImpl)) registryImpl rfl "b"
    (World.start ["a"])⟩

/-! ## Forwarding, validity and frame -/

/-- C3: on a valid root with delegate `d`, the non-throwing `GetCache(name, &err)`
invokes `d.GetCache` exactly once, with that name and the caller's Error Value
(the trace grows by that single call and the engine is left as that one call
leaves it), returns the handle wrapping exactly the reference the delegate
returned, null included, and leaves in `err` exactly the Error Value the
delegate left; the root itself is as before. -/
theorem GetCache_err_forwards {σ : Type} (self : Ignite σ) (d : IgniteImpl σ)
    (hd : self.impl.Get = some d) (name : String) (err : IgniteError) (w : World σ) :
    self.GetCache_err name (some err) w =
      .returned (Cache.mk (d.GetCache name err w.engine).cacheImpl,
          (d.GetCache name err w.engine).err) self
        ⟨(d.GetCache name err w.engine).engine,
          w.calls ++ [⟨.GetCache, name, err⟩]⟩ :=
  nonThrowing_eq self d hd .GetCache name err w

/-- Witness for C3: on the toy engine holding only cache "a", `GetCache("b", &err)`
with a stale `err` makes one delegate call, returns the null handle and leaves
the delegate's "cache not found" in `err`. -/
theorem GetCache_err_forwards_witness :
    (Ignite.ctorFrom (some registryImpl)).impl.Get = some registryImpl ∧
    (Ignite.ctorFrom (some registryImpl)).GetCache_err "b" (some staleError)
        (World.start ["a"]) =
      .returned (⟨none⟩, ⟨2, "cache not found"⟩) (Ignite.ctorFrom (some registryImpl))
        ⟨["a"], [⟨.GetCache, "b", staleError⟩]⟩ :=
  ⟨rfl, GetCache_err_forwards (Ignite.ctorFrom (some registryImpl)) registryImpl rfl "b"
    staleError (World.start ["a"])⟩

/-- C4: `IsValid()` returns true iff the root's delegate reference is non-null,
and returns with the root and the world (engine state and delegate-call trace)
exactly as they were; a default-constructed root has `IsValid() == false` and
a root constructed from a non-null delegate has `IsValid() == true`. -/
theorem IsValid_iff_delegate_nonnull {σ : Type} (self : Ignite σ) (d : IgniteImpl σ)
    (w : World σ) :
    (∃ b, self.IsValid w = .returned b self w ∧ (b = true ↔ self.impl.Get ≠ none)) ∧
    (Ignite.ctor : Ignite σ).IsValid w = .returned false Ignite.ctor w ∧
    (Ignite.ctorFrom (some d)).IsValid w = .returned true (Ignite.ctorFrom (some d)) w := by
  refine ⟨⟨self.impl.IsValid, rfl, ?_⟩, rfl, rfl⟩
  simp [SharedPointer.IsValid, SharedPointer.Get, Option.isSome_iff_ne_none]

/-- C5: for every root and every call of `GetCache`, `GetOrCreateCache` or
`CreateCache` on it, in either form: the call either is the undefined
dereference of a null delegate reference (only on an invalid root), or it
completes by returning or raising, and then the root after the call is the
root before it, delegate reference included, and `IsValid()` after the call
returns what it returned before. -/
theorem acquisition_keeps_validity {σ : Type} (self : Ignite σ) (op : DelegateOp)
    (name : String) (err : IgniteError) (w : World σ) :
    ((self.impl.IsValid = false ∧ self.nonThrowing op name (some err) w = .undefined) ∨
      ∃ r self1 w1, self.nonThrowing op name (some err) w = .returned r self1 w1 ∧
        self1.impl.Get = self.impl.Get ∧ self1 = self ∧
        ∃ b, self.IsValid w = .returned b self w ∧ self1.IsValid w1 = .returned b self1 w1) ∧
    ((self.impl.IsValid = false ∧ self.throwing op name w = .undefined) ∨
      ∃ self1 w1, ((∃ h, self.throwing op name w = .returned h self1 w1) ∨
          (∃ e, self.throwing op name w = .thrown e self1 w1)) ∧
        self1.impl.Get = self.impl.Get ∧ self1 = self ∧
        ∃ b, self.IsValid w = .returned b self w ∧ self1.IsValid w1 = .returned b self1 w1) := by
  cases hd : self.impl.Get with
  | none =>
    have hv : self.impl.IsValid = false := by
      simpa [SharedPointer.IsValid, SharedPointer.Get] using hd
    exact ⟨Or.inl ⟨hv, nonThrowing_null self hd op name _ w⟩,
      Or.inl ⟨hv, throwing_null self hd op name w⟩⟩
  | some d =>
    refine ⟨Or.inr ⟨_, self, _, nonThrowing_eq self d hd op name err w, hd, rfl,
      self.impl.IsValid, rfl, rfl⟩, Or.inr ?_⟩
    by_cases hc : (d.method op name IgniteError.ctor w.engine).err.code ≠ IGNITE_SUCCESS
    · exact ⟨self, _, Or.inr ⟨_, by rw [throwing_valid self d hd, if_pos hc]⟩, hd, rfl,
        self.impl.IsValid, rfl, rfl⟩
    · exact ⟨self, _, Or.inl ⟨_, by rw [throwing_valid self d hd, if_neg hc]⟩, hd, rfl,
        self.impl.IsValid, rfl, rfl⟩

/-! ## Handles and Error Values -/

/-- C6 (as stated, refuted): with the delegate `nullImpl`, which returns a null
reference and leaves the Error Value untouched, the throwing `GetCache("a")`
on a valid root returns without raising and the handle it returns is invalid. -/
theorem GetCache_returns_valid_refuted :
    (Ignite.ctorFrom (some nullImpl)).impl.IsValid = true ∧
    (Ignite.ctorFrom (some nullImpl)).GetCache "a" (World.start ()) =
      .returned ⟨none⟩ (Ignite.ctorFrom (some nullImpl))
        ⟨(), [⟨.GetCache, "a", IgniteError.ctor⟩]⟩ ∧
    Cache.IsValid ⟨none⟩ = false :=
  ⟨rfl, rfl, rfl⟩

/-- C6 (amended): for every delegate whose `GetCache` never leaves a success
Error Value next to a null reference, and every name, if the throwing
`GetCache(name)` returns without raising, the handle it returns is valid. -/
theorem GetCache_returns_valid {σ : Type} (self : Ignite σ) (d : IgniteImpl σ)
    (hd : self.impl.Get = some d) (hc : SuccessGivesRef d.GetCache) (name : String)
    (w : World σ) (h : Cache) (self1 : Ignite σ) (w1 : World σ)
    (hret : self.GetCache name w = .returned h self1 w1) :
    h.IsValid = true := by
  have ht := throwing_valid self d hd .GetCache name w
  simp only [Ignite.throwing, IgniteImpl.method] at ht
  rw [ht] at hret
  by_cases hcode : (d.GetCache name IgniteError.ctor w.engine).err.code ≠ IGNITE_SUCCESS
  · rw [if_pos hcode] at hret
    cases hret
  · rw [if_neg hcode] at hret
    injection hret with hh _ _
    subst hh
    have hne := hc name IgniteError.ctor w.engine (not_not.mp hcode)
    simpa [Cache.IsValid, Option.isSome_iff_ne_none] using hne

/-- The toy engine never leaves a success Error Value next to a null
reference on `GetCache`. -/
theorem registryImpl_successGivesRef : SuccessGivesRef registryImpl.GetCache := by
  intro n e s
  simp only [registryImpl]
  split_ifs <;> simp [IGNITE_SUCCESS]

/-- Witness for C6 (amended): on the toy engine holding cache "a", the throwing
`GetCache("a")` returns the valid handle of cache number 0. -/
theorem GetCache_returns_valid_witness :
    (Ignite.ctorFrom (some registryImpl)).impl.Get = some registryImpl ∧
    SuccessGivesRef registryImpl.GetCache ∧
    (Ignite.ctorFrom (some registryImpl)).GetCache "a" (World.start ["a"]) =
      .returned ⟨some ⟨0⟩⟩ (Ignite.ctorFrom (some registryImpl))
        ⟨["a"], [⟨.GetCache, "a", IgniteError.ctor⟩]⟩ ∧
    Cache.IsValid ⟨some ⟨0⟩⟩ = true :=
  ⟨rfl, registryImpl_successGivesRef, rfl,
    GetCache_returns_valid (Ignite.ctorFrom (some registryImpl)) registryImpl rfl
      registryImpl_successGivesRef "a" (World.start ["a"]) ⟨some ⟨0⟩⟩
      (Ignite.ctorFrom (some registryImpl)) ⟨["a"], [⟨.GetCache, "a", IgniteError.ctor⟩]⟩ rfl⟩

/-- C7 (as stated, refuted): with the silent delegate and a stale non-success
Error Value passed in, the non-throwing `GetOrCreateCache("a", &err)` on a
valid root ends with a non-success Error Value and returns a valid handle. -/
theorem failure_gives_invalid_handle_refuted :
    (Ignite.ctorFrom (some silentImpl)).impl.IsValid = true ∧
    (Ignite.ctorFrom (some silentImpl)).nonThrowing .GetOrCreateCache "a" (some staleError)
        (World.start ()) =
      .returned (⟨some ⟨1⟩⟩, staleError) (Ignite.ctorFrom (some silentImpl))
        ⟨(), [⟨.GetOrCreateCache, "a", staleError⟩]⟩ ∧
    staleError.code ≠ IGNITE_SUCCESS ∧
    Cache.IsValid ⟨some ⟨1⟩⟩ = true :=
  ⟨rfl, rfl, by decide, rfl⟩

/-- C7 (amended): for every delegate whose operation never leaves a non-success
Error Value next to a non-null reference, every name and incoming Error Value,
whenever the non-throwing `GetCache`, `GetOrCreateCache` or `CreateCache` on a
valid root ends with a non-success Error Value, the handle it returns is
invalid. -/
theorem failure_gives_invalid_handle {σ : Type} (self : Ignite σ) (d : IgniteImpl σ)
    (hd : self.impl.Get = some d) (op : DelegateOp) (hc : FailureGivesNull (d.method op))
    (name : String) (err : IgniteError) (w : World σ) (h : Cache) (err1 : IgniteError)
    (self1 : Ignite σ) (w1 : World σ)
    (hrun : self.nonThrowing op name (some err) w = .returned (h, err1) self1 w1)
    (hfail : err1.code ≠ IGNITE_SUCCESS) :
    h.IsValid = false := by
  rw [nonThrowing_eq self d hd] at hrun
  injection hrun with hval _ _
  injection hval with hh he
  subst hh he
  simp [Cache.IsValid, hc name err w.engine hfail]

/-- The toy engine never leaves a non-success Error Value next to a non-null
reference on `CreateCache`. -/
theorem registryImpl_failureGivesNull :
    FailureGivesNull (registryImpl.method .CreateCache) := by
  intro n e s
  simp only [registryImpl, IgniteImpl.method]
  split_ifs <;> simp [IGNITE_SUCCESS, IgniteError.ctor]

/-- Witness for C7 (amended): on the toy engine holding cache "a", the
non-throwing `CreateCache("a", &err)` ends with "cache already exists" and an
invalid handle. -/
theorem failure_gives_invalid_handle_witness :
    (Ignite.ctorFrom (some registryImpl)).impl.Get = some registryImpl ∧
    FailureGivesNull (registryImpl.method .CreateCache) ∧
    (Ignite.ctorFrom (some registryImpl)).nonThrowing .CreateCache "a"
        (some IgniteError.ctor) (World.start ["a"]) =
      .returned (⟨none⟩, ⟨3, "cache already exists"⟩) (Ignite.ctorFrom (some registryImpl))
        ⟨["a"], [⟨.CreateCache, "a", IgniteError.ctor⟩]⟩ ∧
    Cache.IsValid ⟨none⟩ = false :=
  ⟨rfl, registryImpl_failureGivesNull, rfl,
    failure_gives_invalid_handle (Ignite.ctorFrom (some registryImpl)) registryImpl rfl
      .CreateCache registryImpl_failureGivesNull "a" IgniteError.ctor (World.start ["a"])
      ⟨none⟩ ⟨3, "cache already exists"⟩ (Ignite.ctorFrom (some registryImpl))
      ⟨["a"], [⟨.CreateCache, "a", IgniteError.ctor⟩]⟩ rfl (by decide)⟩

/-- C8 (as stated, refuted): on a default-constructed root the delegate
reference is null, and each of the non-throwing `GetCache`, `GetOrCreateCache`
and `CreateCache`, handed a name and an Error Value, dereferences it: the call
is an undefined step and returns nothing. -/
theorem nonThrowing_completes_refuted :
    (Ignite.ctor : Ignite Unit).impl.Get = none ∧
    (Ignite.ctor : Ignite Unit).GetCache_err "a" (some IgniteError.ctor) (World.start ()) =
      .undefined ∧
    (Ignite.ctor : Ignite Unit).GetOrCreateCache_err "a" (some IgniteError.ctor)
        (World.start ()) = .undefined ∧
    (Ignite.ctor : Ignite Unit).CreateCache_err "a" (some IgniteError.ctor) (World.start ()) =
      .undefined :=
  ⟨rfl, rfl, rfl, rfl⟩

/-- C8 (amended): for every valid root, every name and every incoming Error
Value, each of the non-throwing `GetCache`, `GetOrCreateCache` and
`CreateCache` completes by returning a handle and an Error Value: it raises no
condition and takes no undefined step. -/
theorem nonThrowing_completes {σ : Type} (self : Ignite σ)
    (hv : self.impl.IsValid = true) (op : DelegateOp) (name : String) (err : IgniteError)
    (w : World σ) :
    ∃ h err1 w1, self.nonThrowing op name (some err) w = .returned (h, err1) self w1 := by
  cases hd : self.impl.Get with
  | none =>
    have : self.impl.IsValid = false := by
      simpa [SharedPointer.IsValid, SharedPointer.Get] using hd
    rw [this] at hv
    cases hv
  | some d => exact ⟨_, _, _, nonThrowing_eq self d hd op name err w⟩

/-- Witness for C8 (amended): the root over the toy engine is valid and its
non-throwing `CreateCache("b", &err)` returns. -/
theorem nonThrowing_completes_witness :
    (Ignite.ctorFrom (some registryImpl)).impl.IsValid = true ∧
    ∃ h err1 w1, (Ignite.ctorFrom (some registryImpl)).nonThrowing .CreateCache "b"
        (some staleError) (World.start ["a"]) =
      .returned (h, err1) (Ignite.ctorFrom (some registryImpl)) w1 :=
  ⟨rfl, nonThrowing_completes (Ignite.ctorFrom (some registryImpl)) rfl .CreateCache "b"
    staleError (World.start ["a"])⟩

/-! ## The three operations share one pattern -/

/-- On a root whose delegate is `d`, the non-throwing form tagged `op` returns
what the non-throwing `GetCache` returns on a root whose delegate has `d.method op`
in the place of its `GetCache`; the two traces differ in the tag of the one
call made. -/
theorem nonThrowing_as_GetCache {σ : Type} (self : Ignite σ) (d : IgniteImpl σ)
    (hd : self.impl.Get = some d) (op : DelegateOp) (name : String) (err : IgniteError)
    (w : World σ) :
    ∃ h err1 s1,
      self.nonThrowing op name (some err) w =
        .returned (h, err1) self ⟨s1, w.calls ++ [⟨op, name, err⟩]⟩ ∧
      (Ignite.ctorFrom (some (d.withGetCache (d.method op)))).GetCache_err name (some err) w =
        .returned (h, err1) (Ignite.ctorFrom (some (d.withGetCache (d.method op))))
          ⟨s1, w.calls ++ [⟨.GetCache, name, err⟩]⟩ :=
  ⟨_, _, _, nonThrowing_eq self d hd op name err w, rfl⟩

/-- On a root whose delegate is `d`, the throwing form tagged `op` raises the
Error Value its own non-throwing form leaves when run on a fresh Error Value,
if that is not success, and otherwise returns that form's handle. -/
theorem throwing_from_nonThrowing {σ : Type} (self : Ignite σ) (d : IgniteImpl σ)
    (hd : self.impl.Get = some d) (op : DelegateOp) (name : String) (w : World σ) :
    ∃ h err1 w1,
      self.nonThrowing op name (some IgniteError.ctor) w = .returned (h, err1) self w1 ∧
      self.throwing op name w =
        if err1.code ≠ IGNITE_SUCCESS then .thrown err1 self w1 else .returned h self w1 :=
  ⟨_, _, _, nonThrowing_eq self d hd op name IgniteError.ctor w,
    throwing_valid self d hd op name w⟩

/-- C9: on a valid root with delegate `d`, for every name and Error Value, the
non-throwing `GetOrCreateCache` (resp. `CreateCache`) makes exactly one delegate
call, to `d.GetOrCreateCache` (resp. `d.CreateCache`), and returns the handle,
Error Value and engine state that the non-throwing `GetCache` returns over the
delegate with `GetCache` replaced by that operation; the throwing
`GetOrCreateCache` (resp. `CreateCache`) raises exactly the Error Value its own
non-throwing form leaves when run on a fresh Error Value if that is not
success, and otherwise returns that form's handle. -/
theorem acquisition_same_pattern {σ : Type} (self : Ignite σ) (d : IgniteImpl σ)
    (hd : self.impl.Get = some d) (name : String) (err : IgniteError) (w : World σ) :
    (∃ h err1 s1,
      self.GetOrCreateCache_err name (some err) w =
        .returned (h, err1) self ⟨s1, w.calls ++ [⟨.GetOrCreateCache, name, err⟩]⟩ ∧
      (Ignite.ctorFrom (some (d.withGetCache d.GetOrCreateCache))).GetCache_err name
          (some err) w =
        .returned (h, err1) (Ignite.ctorFrom (some (d.withGetCache d.GetOrCreateCache)))
          ⟨s1, w.calls ++ [⟨.GetCache, name, err⟩]⟩) ∧
    (∃ h err1 s1,
      self.CreateCache_err name (some err) w =
        .returned (h, err1) self ⟨s1, w.calls ++ [⟨.CreateCache, name, err⟩]⟩ ∧
      (Ignite.ctorFrom (some (d.withGetCache d.CreateCache))).GetCache_err name (some err) w =
        .returned (h, err1) (Ignite.ctorFrom (some (d.withGetCache d.CreateCache)))
          ⟨s1, w.calls ++ [⟨.GetCache, name, err⟩]⟩) ∧
    (∃ h err1 w1,
      self.GetOrCreateCache_err name (some IgniteError.ctor) w = .returned (h, err1) self w1 ∧
      self.GetOrCreateCache name w =
        if err1.code ≠ IGNITE_SUCCESS then .thrown err1 self w1 else .returned h self w1) ∧
    (∃ h err1 w1,
      self.CreateCache_err name (some IgniteError.ctor) w = .returned (h, err1) self w1 ∧
      self.CreateCache name w =
        if err1.code ≠ IGNITE_SUCCESS then .thrown err1 self w1 else .returned h self w1) :=
  ⟨nonThrowing_as_GetCache self d hd .GetOrCreateCache name err w,
    nonThrowing_as_GetCache self d hd .CreateCache name err w,
    throwing_from_nonThrowing self d hd .GetOrCreateCache name w,
    throwing_from_nonThrowing self d hd .CreateCache name w⟩

/-- Witness for C9: on the toy engine holding cache "a", `CreateCache("a")`
raises "cache already exists" while `GetOrCreateCache("a")` returns cache
number 0. -/
theorem acquisition_same_pattern_witness :
    (Ignite.ctorFrom (some registryImpl)).impl.Get = some registryImpl ∧
    (Ignite.ctorFrom (some registryImpl)).CreateCache "a" (World.start ["a"]) =
      .thrown ⟨3, "cache already exists"⟩ (Ignite.ctorFrom (some registryImpl))
        ⟨["a"], [⟨.CreateCache, "a", IgniteError.ctor⟩]⟩ ∧
    (Ignite.ctorFrom (some registryImpl)).GetOrCreateCache "a" (World.start ["a"]) =
      .returned ⟨some ⟨0⟩⟩ (Ignite.ctorFrom (some registryImpl))
        ⟨["a"], [⟨.GetOrCreateCache, "a", IgniteError.ctor⟩]⟩ ∧
    ∃ h err1 w1,
      (Ignite.ctorFrom (some registryImpl)).CreateCache_err "a" (some IgniteError.ctor)
          (World.start ["a"]) = .returned (h, err1) (Ignite.ctorFrom (some registryImpl)) w1 ∧
      (Ignite.ctorFrom (some registryImpl)).CreateCache "a" (World.start ["a"]) =
        if err1.code ≠ IGNITE_SUCCESS then
          .thrown err1 (Ignite.ctorFrom (some registryImpl)) w1
        else .returned h (Ignite.ctorFrom (some registryImpl)) w1 :=
  ⟨rfl, rfl, rfl,
    (acquisition_same_pattern (Ignite.ctorFrom (some registryImpl)) registryImpl rfl "a"
      staleError (World.start ["a"])).2.2.2⟩

/-- C10: on a valid root with delegate `d`, for every name and incoming Error
Value `e`, each non-throwing form makes one delegate call, whose Error Value
argument is `e` itself, and leaves in the caller's Error Value what the
delegate left when handed `e`; if the delegate operation does not write to it,
the Error Value after the call equals `e`, so a non-success `e` stays
non-success. Each throwing form hands the delegate a freshly constructed
Error Value, which is success. -/
theorem nonThrowing_never_resets {σ : Type} (self : Ignite σ) (d : IgniteImpl σ)
    (hd : self.impl.Get = some d) (op : DelegateOp) (name : String) (e : IgniteError)
    (w : World σ) :
    (∃ h err1 w1,
      self.nonThrowing op name (some e) w = .returned (h, err1) self w1 ∧
      w1.calls = w.calls ++ [⟨op, name, e⟩] ∧
      err1 = (d.method op name e w.engine).err ∧
      ((d.method op name e w.engine).err = e →
        err1 = e ∧ (e.code ≠ IGNITE_SUCCESS → err1.code ≠ IGNITE_SUCCESS))) ∧
    (self.throwing op name w).calls? = some (w.calls ++ [⟨op, name, IgniteError.ctor⟩]) ∧
    IgniteError.ctor.code = IGNITE_SUCCESS := by
  refine ⟨⟨_, _, _, nonThrowing_eq self d hd op name e w, rfl, rfl, ?_⟩, ?_, rfl⟩
  · intro hsame
    exact ⟨hsame, fun hne => by rw [hsame]; exact hne⟩
  · rw [throwing_valid self d hd]
    split_ifs <;> rfl

/-- Witness for C10: with the silent delegate, a stale failure passed to the
non-throwing `GetCache("a", &err)` is still in `err` afterwards, while the
throwing `GetCache("a")` hands the delegate a fresh success Error Value. -/
theorem nonThrowing_never_resets_witness :
    (Ignite.ctorFrom (some silentImpl)).impl.Get = some silentImpl ∧
    (Ignite.ctorFrom (some silentImpl)).nonThrowing .GetCache "a" (some staleError)
        (World.start ()) =
      .returned (⟨some ⟨1⟩⟩, staleError) (Ignite.ctorFrom (some silentImpl))
        ⟨(), [⟨.GetCache, "a", staleError⟩]⟩ ∧
    ((Ignite.ctorFrom (some silentImpl)).throwing .GetCache "a" (World.start ())).calls? =
      some ([] ++ [⟨.GetCache, "a", IgniteError.ctor⟩]) :=
  ⟨rfl, rfl,
    (nonThrowing_never_resets (Ignite.ctorFrom (some silentImpl)) silentImpl rfl .GetCache "a"
      staleError (World.start ())).2.1⟩

end ignite
